import Mathlib

/-!
Verification of the JPYC dashboard's core pipeline (`app.py`): address
validation, the `tokentx` paging loop, the transfer normalizer, and the
daily IN/OUT pivot derived from the normalized table.

Modelling notes.
* HTTP transport, Streamlit UI, caching (`st.cache_data`) and `time.sleep`
  are effect-only and are not modelled; the upstream API is a function
  from page number to (decoded JSON body, resolved URL).
* Raw records are modelled as total structures carrying the six required
  fields, with the string-encoded numeric fields already put through the
  `pd.to_numeric(..., errors="coerce")` parsing step: `none` stands for an
  unparsable value (coerced to NaN, then `fillna(0)`).  The subsequent
  `astype("int64")` cast of the raw value (app.py line 167) is modelled by
  `int64cast`, the two's-complement 64-bit wrap.
* Floating-point division `value_raw / 10 ** tokenDecimal` is modelled
  exactly over `Rat`.
* The `missing columns` check of `fetch_tokentx_cached` is vacuous in the
  typed model (every record carries all six fields) and is omitted.
-/

/-- ASCII whitespace stripped by Python's `str.strip()` (the Unicode
whitespace beyond ASCII is irrelevant to the addresses handled here). -/
def isSpaceChar (c : Char) : Bool :=
  (c == ' ') || (c == '\t') || (c == '\n') || (c == '\r') || (c == '\x0b') || (c == '\x0c')

/-- Model of Python's `str.strip()` on the character list of a string. -/
def pyStrip (cs : List Char) : List Char :=
  ((cs.dropWhile isSpaceChar).reverse.dropWhile isSpaceChar).reverse

/-- Does the character list `needle` occur at the head of `hay`?
Model of Python's `str.startswith`. -/
def substrAt : List Char → List Char → Bool
  | [], _ => true
  | _ :: _, [] => false
  | a :: as, b :: bs => (a == b) && substrAt as bs

/-- Model of `is_valid_address` (app.py lines 60-62):
`addr = (addr or "").strip(); return addr.startswith("0x") and len(addr) == 42`. -/
def is_valid_address (addr : String) : Bool :=
  substrAt "0x".toList (pyStrip addr.toList) && ((pyStrip addr.toList).length == 42)

/-- A hexadecimal digit, used only by the spec-side address predicate. -/
def isHexChar (c : Char) : Bool :=
  (('0' ≤ c) && (c ≤ '9')) || (('a' ≤ c) && (c ≤ 'f')) || (('A' ≤ c) && (c ≤ 'F'))

/-- Spec-side address validity, written from the spec's words: after
stripping surrounding whitespace, the string is `0x` followed by exactly
40 hexadecimal characters.  Compared against `is_valid_address`. -/
def validAddressSpec (addr : String) : Bool :=
  substrAt "0x".toList (pyStrip addr.toList) && ((pyStrip addr.toList).length == 42)
    && (((pyStrip addr.toList).drop 2).all isHexChar)

/-- Does the character list `needle` occur anywhere inside `hay`?
Model of Python's `needle in hay` on strings. -/
def substrIn (needle : List Char) : List Char → Bool
  | [] => needle.isEmpty
  | b :: bs => substrAt needle (b :: bs) || substrIn needle bs

/-- Model of the sentinel test `"No transactions" in result` (app.py line 135). -/
def hasNoTransactions (s : String) : Bool :=
  substrIn "No transactions".toList s.toList

/-- One raw transfer record, after the per-field numeric parsing that
`fetch_tokentx_cached` applies (`none` = unparsable and coerced to NaN). -/
structure RawRecord where
  timeStamp : Int
  value : Option Int
  tokenDecimal : Option Nat
  fromAddr : String
  toAddr : String
  hash : String
deriving DecidableEq

/-- The `result` field of a decoded Etherscan response: a list, a string,
JSON null, or something else entirely. -/
inductive ResultField where
  | rlist (l : List RawRecord)
  | rstr (s : String)
  | rnull
  | rother
deriving DecidableEq

/-- A decoded Etherscan V2 response body (the fields the code reads). -/
structure Resp where
  status : String
  message : String
  result : ResultField
deriving DecidableEq

/-- The upstream API, as seen by the paging loop: page number to
(decoded body, resolved request URL). -/
def Upstream : Type := Nat → Resp × String

/-- The `RuntimeError`s raised inside the paging loop, with the diagnostic
detail each message carries (`normalize_etherscan_error` plus the URL). -/
inductive FetchErr where
  | nullResult (status message url : String)
  | apiError (status message result url : String)
  | badShape (status message url : String)
deriving DecidableEq

/-- Outcome of the paging loop: accumulated raw rows, the early
`return pd.DataFrame()` taken on the no-transactions sentinel, or a raise. -/
inductive LoopOut where
  | rows (rs : List RawRecord)
  | emptyDF
  | fail (e : FetchErr)
deriving DecidableEq

/-- The `while True` paging loop of `fetch_tokentx_cached` (app.py lines
110-151).  `fuel` is the number of pages the `page > max_pages` guard still
allows, so the loop is entered with `fuel = max_pages` and `page = 1`. -/
def fetchLoop (up : Upstream) (offset : Nat) : Nat → Nat → List RawRecord → LoopOut
  | _, 0, acc => LoopOut.rows acc
  | page, fuel + 1, acc =>
    let data := (up page).1
    let url := (up page).2
    match data.result with
    | ResultField.rnull => LoopOut.fail (FetchErr.nullResult data.status data.message url)
    | ResultField.rstr s =>
      if hasNoTransactions s then LoopOut.emptyDF
      else LoopOut.fail (FetchErr.apiError data.status data.message s url)
    | ResultField.rother => LoopOut.fail (FetchErr.badShape data.status data.message url)
    | ResultField.rlist l =>
      if l.length = 0 then LoopOut.rows acc
      else if l.length < offset then LoopOut.rows (acc ++ l)
      else fetchLoop up offset (page + 1) fuel (acc ++ l)

/-- Model of Python's `str.lower()`, as the lowercased character list
(the addresses handled here are ASCII). -/
def pyLower (s : String) : List Char := s.toList.map Char.toLower

/-- Ten to a natural power, over `Rat`: `10 ** d`. -/
def tenPow : Nat → Rat
  | 0 => 1
  | n + 1 => 10 * tenPow n

/-- Model of `astype("int64")` (app.py line 167): the two's-complement
64-bit reinterpretation of the parsed integer (the constants are `2^63`
and `2^64`).  `pandas` parses a column of unsigned decimal strings as
int64 when every value fits, as uint64 when every value fits that — a
value in `[2^63, 2^64)` then wraps to negative exactly as here; still
larger values take a lossy float64 path whose cast is platform-dependent,
modelled by the same wrap. -/
def int64cast (v : Int) : Int :=
  (v + 9223372036854775808) % 18446744073709551616 - 9223372036854775808

/-- Transfer direction relative to the queried wallet address. -/
inductive Dir where
  | IN
  | OUT
deriving DecidableEq

/-- One normalized transfer row (the columns app.py lines 164-178 add). -/
structure NormTransfer where
  timeStamp : Int
  value_raw : Int
  tokenDecimal : Nat
  amount : Rat
  direction : Dir
  signed_amount : Rat
  counterparty : String
  fromAddr : String
  toAddr : String
  hash : String
deriving DecidableEq

/-- The normalizer applied to one raw record (app.py lines 164-178):
`tokenDecimal` and `value` default to 0 when unparsable, `value_raw` is
the parsed value cast to int64 (`.astype("int64")`, wrapping out-of-range
values), `amount` is `value_raw` divided by `10 ** tokenDecimal`,
direction is IN iff the lowercased receiver equals the lowercased queried
address, `signed_amount` negates OUT rows, and `counterparty` is the
other side of the transfer. -/
def normalizeRow (address : String) (r : RawRecord) : NormTransfer :=
  let d : Nat := r.tokenDecimal.getD 0
  let v : Int := int64cast (r.value.getD 0)
  let amount : Rat := (v : Rat) / tenPow d
  let dir : Dir := if pyLower r.toAddr = pyLower address then Dir.IN else Dir.OUT
  { timeStamp := r.timeStamp
    value_raw := v
    tokenDecimal := d
    amount := amount
    direction := dir
    signed_amount := if dir = Dir.IN then amount else -amount
    counterparty := if dir = Dir.IN then r.fromAddr else r.toAddr
    fromAddr := r.fromAddr
    toAddr := r.toAddr
    hash := r.hash }

/-- Model of `fetch_tokentx_cached` (app.py lines 96-180): run the paging
loop from page 1, then normalize the accumulated rows (an empty
accumulation yields an empty table, as does the sentinel early return).
Raised `RuntimeError`s become `Except.error`. -/
def fetch_tokentx_cached (up : Upstream) (address : String) (offset maxPages : Nat) :
    Except FetchErr (List NormTransfer) :=
  match fetchLoop up offset 1 maxPages [] with
  | LoopOut.fail e => Except.error e
  | LoopOut.emptyDF => Except.ok []
  | LoopOut.rows rs => Except.ok (rs.map (normalizeRow address))

/-- Calendar day (in the fixed Asia/Tokyo display zone, UTC+9, no DST) of a
Unix timestamp: model of `.dt.tz_convert("Asia/Tokyo")` + `.dt.floor("D")`. -/
def dayOf (ts : Int) : Int := Int.fdiv (ts + 9 * 3600) 86400

/-- Model of the daily IN/OUT pivot (app.py lines 323-332): one row per
calendar day present in the table, carrying the summed IN amount and the
summed OUT amount for that day; a direction with no transfer on a day sums
over the empty list, i.e. contributes exactly 0 (pandas `fill_value=0`). -/
def daily_inout (rs : List NormTransfer) : List (Int × Rat × Rat) :=
  (List.insertionSort (· ≤ ·) ((rs.map (fun t => dayOf t.timeStamp)).dedup)).map
    (fun d =>
      (d,
       ((rs.filter (fun t => (dayOf t.timeStamp == d) && (t.direction == Dir.IN))).map
          (fun t => t.amount)).sum,
       ((rs.filter (fun t => (dayOf t.timeStamp == d) && (t.direction == Dir.OUT))).map
          (fun t => t.amount)).sum))

/-! Concrete data used by witnesses and counterexamples. -/

/-- A raw record with trivially parsable fields, used in concrete upstreams. -/
def mkRec (h : String) : RawRecord :=
  { timeStamp := 0, value := some 1, tokenDecimal := some 0,
    fromAddr := "s", toAddr := "t", hash := h }

/-- Upstream returning one full page of two records, then one-record pages. -/
def up1 : Upstream := fun p =>
  if p = 1 then
    ({ status := "1", message := "OK", result := ResultField.rlist [mkRec "a1", mkRec "a2"] }, "u1")
  else
    ({ status := "1", message := "OK", result := ResultField.rlist [mkRec "a3"] }, "u2")

/-- A concrete raw transfer of 10 JPYC addressed to wallet `w`: raw value
`10^19` with 18 token decimals — an unsigned value above `2^63` that the
int64 cast wraps to `-8446744073709551616`. -/
def recN : RawRecord :=
  { timeStamp := 0, value := some 10000000000000000000, tokenDecimal := some 18,
    fromAddr := "x", toAddr := "w", hash := "hN" }

/-- Upstream returning a single short page holding `recN`. -/
def upN : Upstream := fun _ =>
  ({ status := "1", message := "OK", result := ResultField.rlist [recN] }, "uN")

/-- Upstream whose every page decodes with a null result field. -/
def up4 : Upstream := fun _ =>
  ({ status := "0", message := "NOTOK", result := ResultField.rnull }, "u4")

/-- Upstream whose every page carries the no-transactions sentinel string. -/
def up5 : Upstream := fun _ =>
  ({ status := "0", message := "No transactions found",
     result := ResultField.rstr "No transactions found" }, "u5")

/-- Upstream whose every page carries an empty result list. -/
def up9 : Upstream := fun _ =>
  ({ status := "1", message := "OK", result := ResultField.rlist [] }, "u9")

/-- Upstream with a full one-record page 1, then the sentinel on later pages. -/
def up10 : Upstream := fun p =>
  if p = 1 then
    ({ status := "1", message := "OK", result := ResultField.rlist [mkRec "c1"] }, "uA")
  else
    ({ status := "0", message := "No transactions found",
       result := ResultField.rstr "No transactions found" }, "uB")

/-- A concrete raw transfer into wallet `w` with value 7, for the pivot. -/
def recW : RawRecord :=
  { timeStamp := 0, value := some 7, tokenDecimal := some 0,
    fromAddr := "x", toAddr := "w", hash := "h8" }

/-- The normalized row of `recW` for wallet `w` (an IN transfer of 7). -/
def tW : NormTransfer := normalizeRow "w" recW

/-! Helper lemmas about the paging loop. -/

/-- Exhausted page budget: the loop returns the accumulator. -/
lemma fetchLoop_zero (up : Upstream) (offset page : Nat) (acc : List RawRecord) :
    fetchLoop up offset page 0 acc = LoopOut.rows acc := rfl

/-- One unfolding of the loop body while the page budget is positive. -/
lemma fetchLoop_succ (up : Upstream) (offset page fuel : Nat) (acc : List RawRecord) :
    fetchLoop up offset page (fuel + 1) acc =
      match (up page).1.result with
      | ResultField.rnull =>
        LoopOut.fail (FetchErr.nullResult (up page).1.status (up page).1.message (up page).2)
      | ResultField.rstr s =>
        if hasNoTransactions s then LoopOut.emptyDF
        else LoopOut.fail (FetchErr.apiError (up page).1.status (up page).1.message s (up page).2)
      | ResultField.rother =>
        LoopOut.fail (FetchErr.badShape (up page).1.status (up page).1.message (up page).2)
      | ResultField.rlist l =>
        if l.length = 0 then LoopOut.rows acc
        else if l.length < offset then LoopOut.rows (acc ++ l)
        else fetchLoop up offset (page + 1) fuel (acc ++ l) := rfl

/-- A full page (exactly `offset` records, `offset > 0`) makes the loop
extend the accumulator and move to the next page. -/
lemma fetchLoop_full_step (up : Upstream) (offset page fuel : Nat) (acc : List RawRecord)
    (l : List RawRecord) (hres : (up page).1.result = ResultField.rlist l)
    (hlen : l.length = offset) (hoff : 0 < offset) :
    fetchLoop up offset page (fuel + 1) acc = fetchLoop up offset (page + 1) fuel (acc ++ l) := by
  rw [fetchLoop_succ, hres]
  dsimp only
  rw [if_neg (by omega), if_neg (by omega)]

/-- A short page (fewer than `offset` records) ends the loop with the
accumulated records; an empty page is the degenerate short page. -/
lemma fetchLoop_short_step (up : Upstream) (offset page fuel : Nat) (acc : List RawRecord)
    (l : List RawRecord) (hres : (up page).1.result = ResultField.rlist l)
    (hlen : l.length < offset) :
    fetchLoop up offset page (fuel + 1) acc = LoopOut.rows (acc ++ l) := by
  rw [fetchLoop_succ, hres]
  dsimp only
  by_cases h0 : l.length = 0
  · rw [if_pos h0]
    have hnil : l = [] := List.length_eq_zero.mp h0
    subst hnil
    simp
  · rw [if_neg h0, if_pos hlen]

/-- Running the loop across `k` consecutive full pages accumulates exactly
`k * offset` records and leaves the loop at page `page + k`. -/
lemma fetchLoop_skip_full (up : Upstream) (offset : Nat) (hoff : 0 < offset) :
    ∀ (k : Nat), ∀ (page fuel : Nat) (acc : List RawRecord),
      k ≤ fuel →
      (∀ p, page ≤ p → p < page + k →
        ∃ l, (up p).1.result = ResultField.rlist l ∧ l.length = offset) →
      ∃ acc2, fetchLoop up offset page fuel acc = fetchLoop up offset (page + k) (fuel - k) acc2 ∧
        acc2.length = acc.length + k * offset := by
  intro k
  induction k with
  | zero =>
    intro page fuel acc _ _
    exact ⟨acc, by simp⟩
  | succ n ih =>
    intro page fuel acc hk hfull
    obtain ⟨l, hres, hlen⟩ := hfull page (le_refl page) (by omega)
    obtain ⟨f, rfl⟩ : ∃ f, fuel = f + 1 := ⟨fuel - 1, by omega⟩
    rw [fetchLoop_full_step up offset page f acc l hres hlen hoff]
    obtain ⟨acc2, heq, hlen2⟩ := ih (page + 1) f (acc ++ l) (by omega)
      (fun p h1 h2 => hfull p (by omega) (by omega))
    have h1 : page + 1 + n = page + (n + 1) := by omega
    have h2 : f - n = f + 1 - (n + 1) := by omega
    rw [h1, h2] at heq
    refine ⟨acc2, heq, ?_⟩
    rw [hlen2, List.length_append, hlen, Nat.succ_mul]
    omega

/-- C1: the claim's length formula for the scenario "exactly `max_pages`
full pages then a short final page" is `(max_pages - 1) * offset +
short_page_length`; the code instead stops after `max_pages` full pages
without ever requesting the short page.  Concretely with `offset = 2`,
`max_pages = 1`, page 1 full and page 2 of length 1, the loop returns 2
records, not `(1 - 1) * 2 + 1 = 1`. -/
theorem C1_counterexample :
    ¬ (∃ rs, fetchLoop up1 2 1 1 [] = LoopOut.rows rs ∧
        rs.length = (1 - 1) * 2 + 1) := by
  rintro ⟨rs, h1, h2⟩
  have h3 : fetchLoop up1 2 1 1 [] = LoopOut.rows [mkRec "a1", mkRec "a2"] := by decide
  rw [h3] at h1
  injection h1 with h4
  subst h4
  exact absurd h2 (by decide)

/-- C1 (amended): when the upstream serves `max_pages` full pages of size
`offset` (a short page after them is never requested), the loop returns
`max_pages * offset` records; when the short page sits at position
`j <= max_pages` after `j - 1` full pages, the loop returns
`(j - 1) * offset + short_page_length` records.  In both cases the loop
stops with the accumulated records as a partial result, not an error. -/
theorem C1_pager_amended :
    (∀ (up : Upstream) (offset maxPages : Nat),
      0 < offset →
      (∀ p, 1 ≤ p → p ≤ maxPages →
        ∃ l, (up p).1.result = ResultField.rlist l ∧ l.length = offset) →
      ∃ rs, fetchLoop up offset 1 maxPages [] = LoopOut.rows rs ∧
        rs.length = maxPages * offset) ∧
    (∀ (up : Upstream) (offset maxPages j : Nat) (short : List RawRecord),
      0 < offset → 1 ≤ j → j ≤ maxPages →
      (∀ p, 1 ≤ p → p < j →
        ∃ l, (up p).1.result = ResultField.rlist l ∧ l.length = offset) →
      (up j).1.result = ResultField.rlist short → short.length < offset →
      ∃ rs, fetchLoop up offset 1 maxPages [] = LoopOut.rows rs ∧
        rs.length = (j - 1) * offset + short.length) := by
  constructor
  · intro up offset maxPages hoff hfull
    obtain ⟨acc2, heq, hlen⟩ := fetchLoop_skip_full up offset hoff maxPages 1 maxPages []
      (le_refl _) (fun p h1 h2 => hfull p h1 (by omega))
    refine ⟨acc2, ?_, by simpa using hlen⟩
    rw [heq, Nat.sub_self, fetchLoop_zero]
  · intro up offset maxPages j short hoff hj1 hjm hfull hres hshort
    obtain ⟨acc2, heq, hlen⟩ := fetchLoop_skip_full up offset hoff (j - 1) 1 maxPages []
      (by omega) (fun p h1 h2 => hfull p h1 (by omega))
    have hpage : 1 + (j - 1) = j := by omega
    obtain ⟨f, hf⟩ : ∃ f, maxPages - (j - 1) = f + 1 := ⟨maxPages - j, by omega⟩
    rw [hpage, hf] at heq
    rw [heq, fetchLoop_short_step up offset j f acc2 short hres hshort]
    have hlen' : acc2.length = (j - 1) * offset := by simpa using hlen
    exact ⟨acc2 ++ short, rfl, by rw [List.length_append, hlen']⟩

/-- Witness for C1 (amended), first conjunct: one full page of two records
with `offset = 2`, `max_pages = 1` yields `1 * 2` records. -/
theorem C1_witness :
    ∃ rs, fetchLoop up1 2 1 1 [] = LoopOut.rows rs ∧ rs.length = 1 * 2 :=
  C1_pager_amended.1 up1 2 1 (by decide)
    (fun p h1 h2 => by
      have hp : p = 1 := by omega
      subst hp
      exact ⟨[mkRec "a1", mkRec "a2"], rfl, rfl⟩)

/-- C4: after any run of full pages, a page whose result field is null, a
non-sentinel string, or neither list nor string makes the whole fetch
return the raised error — carrying status, message, the raw string result
where there is one, and the resolved URL — and no partial table. -/
theorem C4_error_aborts :
    ∀ (up : Upstream) (address : String) (offset maxPages j : Nat),
      0 < offset → 1 ≤ j → j ≤ maxPages →
      (∀ p, 1 ≤ p → p < j →
        ∃ l, (up p).1.result = ResultField.rlist l ∧ l.length = offset) →
      ((up j).1.result = ResultField.rnull →
        fetch_tokentx_cached up address offset maxPages =
          Except.error (FetchErr.nullResult (up j).1.status (up j).1.message (up j).2)) ∧
      (∀ s, (up j).1.result = ResultField.rstr s → hasNoTransactions s = false →
        fetch_tokentx_cached up address offset maxPages =
          Except.error (FetchErr.apiError (up j).1.status (up j).1.message s (up j).2)) ∧
      ((up j).1.result = ResultField.rother →
        fetch_tokentx_cached up address offset maxPages =
          Except.error (FetchErr.badShape (up j).1.status (up j).1.message (up j).2)) := by
  intro up address offset maxPages j hoff hj1 hjm hfull
  obtain ⟨acc2, heq, _⟩ := fetchLoop_skip_full up offset hoff (j - 1) 1 maxPages []
    (by omega) (fun p h1 h2 => hfull p h1 (by omega))
  have hpage : 1 + (j - 1) = j := by omega
  obtain ⟨f, hf⟩ : ∃ f, maxPages - (j - 1) = f + 1 := ⟨maxPages - j, by omega⟩
  rw [hpage, hf] at heq
  refine ⟨?_, ?_, ?_⟩
  · intro hres
    unfold fetch_tokentx_cached
    rw [heq, fetchLoop_succ, hres]
  · intro s hres hsent
    unfold fetch_tokentx_cached
    rw [heq, fetchLoop_succ, hres]
    dsimp only
    rw [if_neg (by simp [hsent])]
  · intro hres
    unfold fetch_tokentx_cached
    rw [heq, fetchLoop_succ, hres]

/-- Witness for C4: a null result on page 1 aborts the fetch with the
diagnostic detail of that page. -/
theorem C4_witness :
    fetch_tokentx_cached up4 "w" 1 1 =
      Except.error (FetchErr.nullResult "0" "NOTOK" "u4") :=
  (C4_error_aborts up4 "w" 1 1 1 (by decide) (by decide) (by decide)
    (fun p h1 h2 => absurd h2 (by omega))).1 rfl

/-- C5: a result field that is a string containing the no-transactions
sentinel on page 1 makes the fetch return an empty table, not an error. -/
theorem C5_sentinel_empty :
    ∀ (up : Upstream) (address : String) (offset maxPages : Nat) (s : String),
      (up 1).1.result = ResultField.rstr s → hasNoTransactions s = true →
      fetch_tokentx_cached up address offset maxPages = Except.ok [] := by
  intro up address offset maxPages s hres hsent
  unfold fetch_tokentx_cached
  cases maxPages with
  | zero =>
    rw [fetchLoop_zero]
    rfl
  | succ f =>
    rw [fetchLoop_succ, hres]
    dsimp only
    rw [if_pos hsent]

/-- Witness for C5: the literal upstream string `"No transactions found"`
yields `Except.ok []`. -/
theorem C5_witness :
    fetch_tokentx_cached up5 "w" 10 5 = Except.ok [] :=
  C5_sentinel_empty up5 "w" 10 5 "No transactions found" rfl (by decide)

/-- C9: a page whose result field is the empty list ends the loop without
error; the fetch then proceeds with the records accumulated from the
earlier (full) pages, and the resulting table is empty precisely when the
empty page was page 1. -/
theorem C9_empty_page :
    ∀ (up : Upstream) (address : String) (offset maxPages j : Nat),
      0 < offset → 1 ≤ j → j ≤ maxPages →
      (∀ p, 1 ≤ p → p < j →
        ∃ l, (up p).1.result = ResultField.rlist l ∧ l.length = offset) →
      (up j).1.result = ResultField.rlist [] →
      ∃ rs, fetchLoop up offset 1 maxPages [] = LoopOut.rows rs ∧
        rs.length = (j - 1) * offset ∧
        fetch_tokentx_cached up address offset maxPages =
          Except.ok (rs.map (normalizeRow address)) ∧
        (fetch_tokentx_cached up address offset maxPages = Except.ok [] ↔ j = 1) := by
  intro up address offset maxPages j hoff hj1 hjm hfull hres
  obtain ⟨acc2, heq, hlen⟩ := fetchLoop_skip_full up offset hoff (j - 1) 1 maxPages []
    (by omega) (fun p h1 h2 => hfull p h1 (by omega))
  have hpage : 1 + (j - 1) = j := by omega
  obtain ⟨f, hf⟩ : ∃ f, maxPages - (j - 1) = f + 1 := ⟨maxPages - j, by omega⟩
  rw [hpage, hf] at heq
  have hstep : fetchLoop up offset j (f + 1) acc2 = LoopOut.rows (acc2 ++ []) :=
    fetchLoop_short_step up offset j f acc2 [] hres (by simpa using hoff)
  rw [List.append_nil] at hstep
  have hloop : fetchLoop up offset 1 maxPages [] = LoopOut.rows acc2 := by rw [heq, hstep]
  have hlen' : acc2.length = (j - 1) * offset := by simpa using hlen
  have hfetch : fetch_tokentx_cached up address offset maxPages =
      Except.ok (acc2.map (normalizeRow address)) := by
    unfold fetch_tokentx_cached
    rw [hloop]
  refine ⟨acc2, hloop, hlen', hfetch, ?_⟩
  constructor
  · intro hempty
    rw [hfetch] at hempty
    injection hempty with hmap
    have hnil : acc2 = [] := List.map_eq_nil_iff.mp hmap
    have : (j - 1) * offset = 0 := by rw [← hlen', hnil]; rfl
    rcases Nat.mul_eq_zero.mp this with h | h
    · omega
    · omega
  · intro hj
    subst hj
    have hnil : acc2 = [] := by
      have : acc2.length = 0 := by simpa using hlen'
      exact List.length_eq_zero.mp this
    rw [hfetch, hnil]
    rfl

/-- Witness for C9: an empty result list on page 1 ends the fetch with an
empty table. -/
theorem C9_witness :
    ∃ rs, fetchLoop up9 1 1 1 [] = LoopOut.rows rs ∧ rs.length = (1 - 1) * 1 ∧
      fetch_tokentx_cached up9 "w" 1 1 = Except.ok (rs.map (normalizeRow "w")) ∧
      (fetch_tokentx_cached up9 "w" 1 1 = Except.ok [] ↔ 1 = 1) :=
  C9_empty_page up9 "w" 1 1 1 (by decide) (by decide) (by decide)
    (fun p h1 h2 => absurd h2 (by omega)) rfl

/-- C10: the no-transactions sentinel on a page `j >= 2`, after `j - 1`
full pages have already contributed records, makes the fetch return a
completely empty table, discarding the accumulated records. -/
theorem C10_sentinel_discards :
    ∀ (up : Upstream) (address : String) (offset maxPages j : Nat) (s : String),
      0 < offset → 2 ≤ j → j ≤ maxPages →
      (∀ p, 1 ≤ p → p < j →
        ∃ l, (up p).1.result = ResultField.rlist l ∧ l.length = offset) →
      (up j).1.result = ResultField.rstr s → hasNoTransactions s = true →
      fetchLoop up offset 1 maxPages [] = LoopOut.emptyDF ∧
      fetch_tokentx_cached up address offset maxPages = Except.ok [] := by
  intro up address offset maxPages j s hoff hj2 hjm hfull hres hsent
  obtain ⟨acc2, heq, _⟩ := fetchLoop_skip_full up offset hoff (j - 1) 1 maxPages []
    (by omega) (fun p h1 h2 => hfull p h1 (by omega))
  have hpage : 1 + (j - 1) = j := by omega
  obtain ⟨f, hf⟩ : ∃ f, maxPages - (j - 1) = f + 1 := ⟨maxPages - j, by omega⟩
  rw [hpage, hf] at heq
  have hloop : fetchLoop up offset 1 maxPages [] = LoopOut.emptyDF := by
    rw [heq, fetchLoop_succ, hres]
    dsimp only
    rw [if_pos hsent]
  refine ⟨hloop, ?_⟩
  unfold fetch_tokentx_cached
  rw [hloop]

/-- Witness for C10: one full page of one record, then the sentinel on
page 2; the fetch returns the empty table. -/
theorem C10_witness :
    fetchLoop up10 1 1 2 [] = LoopOut.emptyDF ∧
    fetch_tokentx_cached up10 "w" 1 2 = Except.ok [] :=
  C10_sentinel_discards up10 "w" 1 2 2 "No transactions found"
    (by decide) (by decide) (by decide)
    (fun p h1 h2 => by
      have hp : p = 1 := by omega
      subst hp
      exact ⟨[mkRec "c1"], rfl, rfl⟩)
    rfl (by decide)

/-- Powers of ten are positive. -/
lemma tenPow_pos : ∀ n, 0 < tenPow n
  | 0 => one_pos
  | n + 1 => by
    rw [tenPow]
    exact mul_pos (by norm_num) (tenPow_pos n)

/-- C3: the claim (and the spec's invariant) says `amount >= 0` for every
row produced from any raw record list.  The code casts the parsed value
to int64 (`astype("int64")`, app.py line 167), so the unsigned raw value
`10^19` — 10 JPYC at the token's 18 decimals, parsed by pandas as uint64 —
wraps to `-8446744073709551616`, and the fetched row's amount is negative.
The spec's arbitrary-precision `amount = v / 10^d` (its data model and its
100-JPYC scenario depend on it) is clearly the intent; the int64 cast is
the slip.  This theorem evaluates the code at the failing input. -/
theorem C3_code_bug :
    fetch_tokentx_cached upN "w" 2 1 = Except.ok [normalizeRow "w" recN] ∧
    (normalizeRow "w" recN).amount < 0 := by
  refine ⟨rfl, ?_⟩
  show ((int64cast 10000000000000000000 : Int) : Rat) / tenPow 18 < 0
  have hcast : int64cast 10000000000000000000 = -8446744073709551616 := by decide
  rw [hcast]
  exact div_neg_of_neg_of_pos
    (by exact_mod_cast (by decide : (-8446744073709551616 : Int) < 0)) (tenPow_pos 18)

/-- C6: the claim says the normalizer computes `amount = v / 10^d` within
floating-point tolerance.  The code casts the parsed value to int64
(app.py line 167, inside the claim's cited lines), so for `v = 10^19`
with `d = 18` it computes `-8446744073709551616 / 10^18` (about `-8.447`)
instead of `10.0` — outside any tolerance.  The spec's normalizer
contract is clearly the intent; the cast is the slip.  The first conjunct
evaluates the code at the failing input, the second states the
divergence from the claimed value. -/
theorem C6_code_bug :
    (normalizeRow "w" recN).amount = ((-8446744073709551616 : Int) : Rat) / tenPow 18 ∧
    (normalizeRow "w" recN).amount ≠ ((10000000000000000000 : Int) : Rat) / tenPow 18 := by
  have hcast : int64cast 10000000000000000000 = -8446744073709551616 := by decide
  constructor
  · show ((int64cast 10000000000000000000 : Int) : Rat) / tenPow 18 = _
    rw [hcast]
  · show ((int64cast 10000000000000000000 : Int) : Rat) / tenPow 18 ≠ _
    have hneg : ((int64cast 10000000000000000000 : Int) : Rat) / tenPow 18 < 0 := by
      rw [hcast]
      exact div_neg_of_neg_of_pos
        (by exact_mod_cast (by decide : (-8446744073709551616 : Int) < 0)) (tenPow_pos 18)
    have hpos : 0 < ((10000000000000000000 : Int) : Rat) / tenPow 18 :=
      div_pos (by exact_mod_cast (by decide : (0 : Int) < 10000000000000000000))
        (tenPow_pos 18)
    exact ne_of_lt (lt_trans hneg hpos)

/-- C2: the claim says `is_valid_address` accepts exactly `0x` plus 40 hex
characters; the code never checks hexness, so a 42-character string of
`0x` followed by 40 non-hex characters is accepted while the claim
requires it to be rejected. -/
theorem C2_counterexample :
    is_valid_address "0xzzzzzzzzzzzzzzzzzzzzzzzzzzzzzzzzzzzzzzzz" = true ∧
    validAddressSpec "0xzzzzzzzzzzzzzzzzzzzzzzzzzzzzzzzzzzzzzzzz" = false :=
  ⟨by decide, by decide⟩

/-- C2 (amended): `is_valid_address` returns true iff the stripped string
starts with `0x` and is exactly 42 characters long — hexness of the 40
remaining characters is not checked.  In particular it still returns false
for every 42-character stripped string not starting with `0x` and for
every stripped string starting with `0x` whose length is not 42 (such as
41 or 43). -/
theorem C2_amended :
    ∀ s : String,
      (is_valid_address s = true ↔
        (substrAt "0x".toList (pyStrip s.toList) = true ∧ (pyStrip s.toList).length = 42)) ∧
      ((pyStrip s.toList).length = 42 → substrAt "0x".toList (pyStrip s.toList) = false →
        is_valid_address s = false) ∧
      (substrAt "0x".toList (pyStrip s.toList) = true → (pyStrip s.toList).length ≠ 42 →
        is_valid_address s = false) := by
  intro s
  refine ⟨?_, ?_, ?_⟩
  · unfold is_valid_address
    rw [Bool.and_eq_true, beq_iff_eq]
  · intro hlen hpre
    unfold is_valid_address
    rw [hpre, Bool.false_and]
  · intro hpre hlen
    unfold is_valid_address
    rw [hpre, Bool.true_and]
    exact beq_eq_false_iff_ne.mpr hlen

/-- Witness for C2 (amended): a well-formed 42-character `0x` address is
accepted. -/
theorem C2_witness :
    is_valid_address "0x0123456789abcdef0123456789abcdef01234567" = true :=
  (C2_amended "0x0123456789abcdef0123456789abcdef01234567").1.mpr ⟨by decide, by decide⟩

/-- C8: every day row of the daily IN/OUT pivot has a nonnegative IN sum
and a nonnegative OUT sum (given the table's nonnegative amounts), and a
day with no transfer in one direction carries exactly 0 in that
direction's column. -/
theorem C8_daily_inout :
    ∀ rs : List NormTransfer,
      (∀ t ∈ rs, 0 ≤ t.amount) →
      ∀ e ∈ daily_inout rs,
        0 ≤ e.2.1 ∧ 0 ≤ e.2.2 ∧
        ((∀ t ∈ rs, dayOf t.timeStamp = e.1 → t.direction ≠ Dir.IN) → e.2.1 = 0) ∧
        ((∀ t ∈ rs, dayOf t.timeStamp = e.1 → t.direction ≠ Dir.OUT) → e.2.2 = 0) := by
  intro rs hamt e he
  unfold daily_inout at he
  rcases List.mem_map.mp he with ⟨d, _, rfl⟩
  refine ⟨?_, ?_, ?_, ?_⟩
  · apply List.sum_nonneg
    intro x hx
    rcases List.mem_map.mp hx with ⟨t, ht, rfl⟩
    exact hamt t (List.mem_filter.mp ht).1
  · apply List.sum_nonneg
    intro x hx
    rcases List.mem_map.mp hx with ⟨t, ht, rfl⟩
    exact hamt t (List.mem_filter.mp ht).1
  · intro hno
    have hnil : rs.filter
        (fun t => (dayOf t.timeStamp == d) && (t.direction == Dir.IN)) = [] := by
      apply List.filter_eq_nil_iff.mpr
      intro t ht
      simp only [Bool.and_eq_true, beq_iff_eq, not_and]
      exact fun h1 h2 => hno t ht h1 h2
    show ((rs.filter
      (fun t => (dayOf t.timeStamp == d) && (t.direction == Dir.IN))).map
        (fun t => t.amount)).sum = 0
    rw [hnil]
    rfl
  · intro hno
    have hnil : rs.filter
        (fun t => (dayOf t.timeStamp == d) && (t.direction == Dir.OUT)) = [] := by
      apply List.filter_eq_nil_iff.mpr
      intro t ht
      simp only [Bool.and_eq_true, beq_iff_eq, not_and]
      exact fun h1 h2 => hno t ht h1 h2
    show ((rs.filter
      (fun t => (dayOf t.timeStamp == d) && (t.direction == Dir.OUT))).map
        (fun t => t.amount)).sum = 0
    rw [hnil]
    rfl

/-- Witness for C8: one IN transfer of 7 on day 0 gives the pivot row
`(0, 7, 0)` — nonnegative sums and exactly 0 for the missing OUT
direction. -/
theorem C8_witness :
    0 ≤ (((0 : Int), (7 : Rat), (0 : Rat))).2.1 ∧
    0 ≤ (((0 : Int), (7 : Rat), (0 : Rat))).2.2 ∧
    ((∀ t ∈ [tW], dayOf t.timeStamp = (((0 : Int), (7 : Rat), (0 : Rat))).1 →
        t.direction ≠ Dir.IN) → (((0 : Int), (7 : Rat), (0 : Rat))).2.1 = 0) ∧
    ((∀ t ∈ [tW], dayOf t.timeStamp = (((0 : Int), (7 : Rat), (0 : Rat))).1 →
        t.direction ≠ Dir.OUT) → (((0 : Int), (7 : Rat), (0 : Rat))).2.2 = 0) :=
  C8_daily_inout [tW]
    (fun t ht => by
      have h : t = tW := List.mem_singleton.mp ht
      subst h
      have h7 : int64cast 7 = 7 := by decide
      simp [tW, normalizeRow, recW, tenPow, h7])
    ((0 : Int), (7 : Rat), (0 : Rat))
    (by
      have h7 : int64cast 7 = 7 := by decide
      simp [daily_inout, tW, normalizeRow, recW, tenPow, dayOf, h7])
